import Mathlib

/-!
Verification of the drogue-client dialect/translator core.

This file embeds, in Lean, the parts of the `drogue-client` Rust crate that
carry algorithmic content: the `Translator` trait over the generic
`spec`/`status` maps of a resource (`src/translator.rs`), the `Conditions`
state machine (`src/core/v1/mod.rs`), the custom deserializers for
`DownstreamSpec` (`src/registry/v1/data/app/downstream.rs`) and `Password`
(`src/registry/v1/data/device/mod.rs`), the `DeviceEnabled` attribute and
`Device::validate_device`, the `Roles::contains` role check
(`src/admin/v1/data.rs`), and the `PartialOrd`/`Ord` implementations of
`PreSharedKey`.

JSON values (`serde_json::Value`) are modelled by the inductive `Value`;
`serde_json::Map` (insertion-ordered) is modelled by an association list with
replace-in-place insertion. Fallible serde decoding is modelled by
`Except String`. `DateTime<Utc>` timestamps are modelled as abstract `Nat`
instants; `Utc::now()` becomes an explicit `now` parameter.
-/

namespace Drogue

/-- A JSON value, modelling `serde_json::Value`. Numbers are modelled as
integers, which is enough for the claims under study. -/
inductive Value where
  | null : Value
  | bool : Bool → Value
  | num : Int → Value
  | str : String → Value
  | arr : List Value → Value
  | obj : List (String × Value) → Value

/-- Lookup in a `serde_json::Map`, modelled as first-match association-list
lookup. -/
def mapGet : List (String × Value) → String → Option Value
  | [], _ => none
  | (k, v) :: rest, key => if k = key then some v else mapGet rest key

/-- Insertion into a `serde_json::Map`: replace the value in place when the
key is present, append otherwise. -/
def mapInsert : List (String × Value) → String → Value → List (String × Value)
  | [], key, v => [(key, v)]
  | (k, w) :: rest, key, v =>
    if k = key then (k, v) :: rest else (k, w) :: mapInsert rest key v

/-- The `Section` enum of `src/translator.rs`: the two generic data maps of a
resource. -/
inductive Section where
  | spec : Section
  | status : Section
deriving DecidableEq

/-- A dialect, bundling what the Rust `Dialect` trait plus the serde
`Serialize`/`Deserialize` impls provide for a concrete type `D`: the declared
key, the declared section, and the decode/encode functions. -/
structure Dialect (D : Type) where
  key : String
  sect : Section
  decode : Value → Except String D
  encode : D → Except String Value

/-- A resource carrying the two generic section maps (`Device`,
`Application`, ... — the `translator!` macro only requires these two
fields; metadata plays no role in the claims). -/
structure Resource where
  spec : List (String × Value)
  status : List (String × Value)

/-- The map a `Section` value selects on a resource. -/
def Resource.sectionMap (R : Resource) : Section → List (String × Value)
  | .spec => R.spec
  | .status => R.status

namespace Translator

/-- `Translator::spec_for`: three-state lookup in the `spec` map by explicit
key and decoder. -/
def spec_for {T : Type} (R : Resource) (key : String)
    (decode : Value → Except String T) : Option (Except String T) :=
  (mapGet R.spec key).map decode

/-- `Translator::status_for`: three-state lookup in the `status` map. -/
def status_for {T : Type} (R : Resource) (key : String)
    (decode : Value → Except String T) : Option (Except String T) :=
  (mapGet R.status key).map decode

/-- `Translator::section` (renamed: `section` is a Lean keyword): dispatch on
the dialect's declared section and look up its declared key. -/
def getSection {D : Type} (d : Dialect D) (R : Resource) :
    Option (Except String D) :=
  match d.sect with
  | .spec => spec_for R d.key d.decode
  | .status => status_for R d.key d.decode

/-- `Translator::set_section`: encode the value and insert it at the
dialect's key. The Rust method mutates `self` and returns
`Result<(), Error>`; that is modelled by returning the outcome together with
the (possibly unchanged) resource. On encode failure the `?` operator
returns before any mutation. -/
def set_section {D : Type} (d : Dialect D) (v : D) (R : Resource) :
    Except String Unit × Resource :=
  match d.encode v with
  | .error e => (.error e, R)
  | .ok jv =>
    (.ok (),
      match d.sect with
      | .spec => { R with spec := mapInsert R.spec d.key jv }
      | .status => { R with status := mapInsert R.status d.key jv })

/-- `Translator::update_section`: read-modify-write with default-on-absent
and fail-fast-on-malformed. `dflt` stands for the `D: Default` instance. -/
def update_section {D : Type} (d : Dialect D) (dflt : D) (f : D → D)
    (R : Resource) : Except String Unit × Resource :=
  match getSection d R with
  | some (.ok s) => set_section d (f s) R
  | none => set_section d (f dflt) R
  | some (.error e) => (.error e, R)

/-- `Translator::attribute` (renamed: `attribute` is a Lean keyword): feed
the three-state fetch outcome to the attribute's extraction function. -/
def attributeOf {D O : Type} (d : Dialect D)
    (extract : Option (Except String D) → O) (R : Resource) : O :=
  extract (getSection d R)

end Translator

/-!
## Conditions (`src/core/v1/mod.rs`)

`DateTime<Utc>` is modelled as `Nat`; `Utc::now()` becomes the explicit
`now` argument of the operations that call it.
-/

/-- The `Condition` struct: field order follows the source. -/
structure Condition where
  last_transition_time : Nat
  message : Option String
  reason : Option String
  status : String
  type : String
deriving DecidableEq

/-- The `ConditionStatus` argument struct of `Conditions::update`. -/
structure ConditionStatus where
  status : Option Bool
  reason : Option String
  message : Option String
deriving DecidableEq

/-- `CONDITION_READY`. -/
def CONDITION_READY : String := "Ready"

namespace Conditions

/-- `Conditions::make_status`. -/
def make_status : Option Bool → String
  | some true => "True"
  | some false => "False"
  | none => "Unknown"

/-- `Conditions::update`: walk the list; at the first condition whose `type`
matches, bump `last_transition_time` (and store the new status) only when
the stored status string differs, and overwrite `reason`/`message`
unconditionally, then stop. When no condition matches, append a fresh one
stamped `now`. -/
def update (now : Nat) (cs : List Condition) (t : String)
    (st : ConditionStatus) : List Condition :=
  let str_status := make_status st.status
  match cs with
  | [] =>
    [{ last_transition_time := now, message := st.message,
       reason := st.reason, status := str_status, type := t }]
  | c :: rest =>
    if c.type = t then
      { c with
        last_transition_time :=
          if c.status ≠ str_status then now else c.last_transition_time,
        status := if c.status ≠ str_status then str_status else c.status,
        reason := st.reason,
        message := st.message } :: rest
    else
      c :: update now rest t st

/-- The ready-scan loop of `Conditions::aggregate_ready`: skip the `Ready`
condition itself, and report `false` at the first other condition whose
status is not the string `"True"` (the Rust loop breaks there). -/
def readyLoop : List Condition → Bool
  | [] => true
  | c :: rest =>
    if c.type = CONDITION_READY then readyLoop rest
    else if c.status ≠ "True" then false
    else readyLoop rest

/-- `Conditions::aggregate_ready`. -/
def aggregate_ready (now : Nat) (cs : List Condition) : List Condition :=
  let ready := readyLoop cs
  update now cs CONDITION_READY
    (match ready with
     | true => { status := some true, reason := none, message := none }
     | false =>
       { status := some false, reason := some "NonReadyConditions",
         message := none })

/-- `Conditions::clear_ready`: retain the conditions of other types, then
re-aggregate. -/
def clear_ready (now : Nat) (cs : List Condition) (t : String) :
    List Condition :=
  aggregate_ready now (cs.filter fun c => c.type ≠ t)

end Conditions

/-!
## Device core section, `DeviceEnabled` attribute, `validate_device`
(`src/registry/v1/data/device/mod.rs`)
-/

/-- Helper for serde `next_value::<String>()`: a JSON value decoded as a
string. -/
def Value.asString : Value → Except String String
  | .str s => .ok s
  | _ => .error "invalid type: expected a string"

/-- The `DeviceSpecCore` struct. -/
structure DeviceSpecCore where
  disabled : Bool
deriving DecidableEq

/-- serde decode of `DeviceSpecCore`: the `disabled` field defaults to
`false` when absent (`#[serde(default)]`); unknown fields are ignored. -/
def DeviceSpecCore.deserialize : Value → Except String DeviceSpecCore
  | .obj fields =>
    match mapGet fields "disabled" with
    | none => .ok { disabled := false }
    | some (.bool b) => .ok { disabled := b }
    | some _ => .error "invalid type for field disabled"
  | _ => .error "invalid type: expected struct DeviceSpecCore"

/-- serde encode of `DeviceSpecCore`: `disabled` is skipped at its default
(`skip_serializing_if = "is_default"`). -/
def DeviceSpecCore.serialize (c : DeviceSpecCore) : Value :=
  if c.disabled then .obj [("disabled", .bool true)] else .obj []

/-- The dialect declaration of `DeviceSpecCore`: key `"core"` in the `spec`
section. -/
def coreDialect : Dialect DeviceSpecCore :=
  { key := "core", sect := .spec,
    decode := DeviceSpecCore.deserialize,
    encode := fun c => .ok (DeviceSpecCore.serialize c) }

/-- The extraction function of the `DeviceEnabled` attribute, exactly as the
`attribute!` invocation writes it: the decoded branch returns
`core.disabled` unnegated. -/
def DeviceEnabled.extract : Option (Except String DeviceSpecCore) → Bool
  | some (.ok core) => core.disabled
  | some (.error _) => false
  | none => true

/-- `Device::validate_device`: disabled core fails, malformed core section
fails, otherwise (including the absent case) the device is enabled. -/
def Device.validate_device (R : Resource) : Bool :=
  match Translator.getSection coreDialect R with
  | some (.ok core) => if core.disabled then false else true
  | some (.error _) => false
  | none => true

/-!
## Password (`src/registry/v1/data/device/mod.rs`)
-/

/-- The `Password` enum. -/
inductive Password where
  | Plain : String → Password
  | BCrypt : String → Password
  | Sha512 : String → Password
deriving DecidableEq

/-- `PasswordVisitor`: a bare JSON string is a legacy plain password; a map
is read by its first key, with unknown keys and the empty map rejected.
serde_json errors out when entries remain after the visitor returns, which
the trailing `rest.isEmpty` check models. -/
def Password.deserialize : Value → Except String Password
  | .str s => .ok (.Plain s)
  | .obj [] => .error "invalid length 0, expected exactly one field"
  | .obj ((k, v) :: rest) =>
    let r : Except String Password :=
      if k = "plain" then (Value.asString v).map .Plain
      else if k = "bcrypt" then (Value.asString v).map .BCrypt
      else if k = "sha512" then (Value.asString v).map .Sha512
      else .error ("unknown field " ++ k)
    match r with
    | .error e => .error e
    | .ok p => if rest.isEmpty then .ok p else .error "expected end of map"
  | _ => .error "invalid type: expected a password, by string or map"

/-- The derived `Serialize` of `Password`: always the externally tagged
single-entry object. -/
def Password.serialize : Password → Value
  | .Plain s => .obj [("plain", .str s)]
  | .BCrypt s => .obj [("bcrypt", .str s)]
  | .Sha512 s => .obj [("sha512", .str s)]

/-!
## DownstreamSpec (`src/registry/v1/data/app/downstream.rs`)
-/

/-- The `InternalSpec` struct. -/
structure InternalSpec where
  password : Option String
deriving DecidableEq

/-- serde decode of `InternalSpec`: optional `password` field, unknown
fields ignored. -/
def InternalSpec.deserialize : Value → Except String InternalSpec
  | .obj fields =>
    match mapGet fields "password" with
    | none => .ok { password := none }
    | some .null => .ok { password := none }
    | some (.str s) => .ok { password := some s }
    | some _ => .error "invalid type for field password"
  | _ => .error "invalid type: expected struct InternalSpec"

/-- The `ExternalKafkaSpec` struct; `properties` is modelled as an
association list of strings. -/
structure ExternalKafkaSpec where
  bootstrap_servers : String
  topic : String
  properties : List (String × String)
deriving DecidableEq

/-- Decode a JSON object whose values are all strings (the `properties`
map). -/
def decodeStringPairs : List (String × Value) → Except String (List (String × String))
  | [] => .ok []
  | (k, .str s) :: rest => (decodeStringPairs rest).map ((k, s) :: ·)
  | (_, _) :: _ => .error "invalid type: expected a string property"

/-- serde decode of `ExternalKafkaSpec` (camelCase field names):
`bootstrapServers` and `topic` are required strings, `properties` defaults
to the empty map. -/
def ExternalKafkaSpec.deserialize : Value → Except String ExternalKafkaSpec
  | .obj fields =>
    match mapGet fields "bootstrapServers" with
    | some (.str bs) =>
      (match mapGet fields "topic" with
       | some (.str t) =>
         (match mapGet fields "properties" with
          | none => .ok { bootstrap_servers := bs, topic := t, properties := [] }
          | some (.obj props) =>
            (decodeStringPairs props).map
              (fun ps => { bootstrap_servers := bs, topic := t, properties := ps })
          | some _ => .error "invalid type for field properties")
       | _ => .error "missing or invalid field topic")
    | _ => .error "missing or invalid field bootstrapServers"
  | _ => .error "invalid type: expected struct ExternalKafkaSpec"

/-- The `DownstreamSpec` enum. -/
inductive DownstreamSpec where
  | ExternalKafka : ExternalKafkaSpec → DownstreamSpec
  | Internal : InternalSpec → DownstreamSpec
deriving DecidableEq

/-- The hand-written `Deserialize` of `DownstreamSpec`: read the first key
of the map; `"externalKafka"` selects the external variant, any other key
selects the internal variant, and both decode that key's sub-value; an
empty map yields the default internal spec. serde_json errors out when
entries remain after the visitor returns, which the trailing `rest.isEmpty`
check models. -/
def DownstreamSpec.deserialize : Value → Except String DownstreamSpec
  | .obj [] => .ok (.Internal { password := none })
  | .obj ((k, v) :: rest) =>
    let r : Except String DownstreamSpec :=
      if k = "externalKafka" then
        (ExternalKafkaSpec.deserialize v).map .ExternalKafka
      else
        (InternalSpec.deserialize v).map .Internal
    match r with
    | .error e => .error e
    | .ok d => if rest.isEmpty then .ok d else .error "expected end of map"
  | _ => .error "invalid type: expected a map"

/-!
## Roles (`src/admin/v1/data.rs`)
-/

/-- The `Role` enum. -/
inductive Role where
  | Admin : Role
  | Manager : Role
  | Reader : Role
  | Subscriber : Role
  | Publisher : Role
deriving DecidableEq, BEq

/-- `Roles::contains`: `Admin` grants everything; `Reader` is implied by
`Manager`; the remaining roles are checked literally. The `Roles` newtype
is modelled by its underlying `Vec<Role>`. -/
def Roles.contains (rs : List Role) (role : Role) : Bool :=
  if rs.contains Role.Admin then true
  else
    match role with
    | .Admin => rs.contains .Admin
    | .Manager => rs.contains .Manager
    | .Reader => rs.contains .Manager || rs.contains .Reader
    | .Publisher => rs.contains .Publisher
    | .Subscriber => rs.contains .Subscriber

/-!
## PreSharedKey ordering (`src/registry/v1/data/device/mod.rs`)

`DateTime<Utc>` bounds are modelled as `Int` instants.
-/

/-- The `Validity` struct. -/
structure Validity where
  not_before : Int
  not_after : Int
deriving DecidableEq

/-- `Validity::partial_cmp` (named `pcmp` here): earlier `notBefore` sorts
first; on ties, the later `notAfter` sorts first. Always `some`. -/
def Validity.pcmp (a b : Validity) : Option Ordering :=
  some
    (if a.not_before < b.not_before then .lt
     else if a.not_before > b.not_before then .gt
     else if a.not_after > b.not_after then .lt
     else if a.not_after < b.not_after then .gt
     else .eq)

/-- Rust's derived `PartialOrd` on `Option<Validity>`, reached by
`PreSharedKey::partial_cmp` only in the both-`Some` case. -/
def optValidityPcmp : Option Validity → Option Validity → Option Ordering
  | none, none => some .eq
  | none, some _ => some .lt
  | some _, none => some .gt
  | some a, some b => Validity.pcmp a b

/-- The `PreSharedKey` struct; the key bytes are modelled as `List Nat`. -/
structure PreSharedKey where
  key : List Nat
  validity : Option Validity
deriving DecidableEq

/-- `PreSharedKey::partial_cmp` (named `pcmp` here), with the source's
branch order: both absent → equal; self absent → less; other absent →
equal; otherwise compare the validities. -/
def PreSharedKey.pcmp (a b : PreSharedKey) : Option Ordering :=
  if a.validity.isNone && b.validity.isNone then some .eq
  else if a.validity.isNone then some .lt
  else if b.validity.isNone then some .eq
  else optValidityPcmp a.validity b.validity

/-- `PreSharedKey::cmp`: `partial_cmp(...).unwrap()`. The unwrap is modelled
by `Option.getD`; the dedicated theorem shows `pcmp` never returns `none`,
so the default is never taken and the Rust unwrap never panics. -/
def PreSharedKey.cmp (a b : PreSharedKey) : Ordering :=
  (PreSharedKey.pcmp a b).getD .eq

/-!
## Claim theorems
-/

/-- `mapGet` after `mapInsert` at the same key finds the inserted value. -/
theorem mapGet_mapInsert (m : List (String × Value)) (k : String) (v : Value) :
    mapGet (mapInsert m k v) k = some v := by
  induction m with
  | nil => simp [mapInsert, mapGet]
  | cons hd tl ih =>
    obtain ⟨k0, w⟩ := hd
    by_cases h : k0 = k
    · simp [mapInsert, h, mapGet]
    · simp [mapInsert, h, mapGet, ih]

/-- `getSection` is the decode of the raw lookup at the dialect's declared
key in its declared map. -/
theorem getSection_eq {D : Type} (d : Dialect D) (R : Resource) :
    Translator.getSection d R =
      (mapGet (R.sectionMap d.sect) d.key).map d.decode := by
  cases h : d.sect <;>
    simp [Translator.getSection, Translator.spec_for, Translator.status_for,
      Resource.sectionMap, h]

/-- Claim C1: for every resource and dialect, `section::<D>()` is a
three-state lookup into the dialect's declared section map at its declared
key: `none` exactly when the key is absent, `some (error e)` exactly when a
value is present but decodes to the error `e`, and `some (ok v)` exactly
when the present value decodes to `v`; the three outcomes are never
conflated. -/
theorem C1_section_three_state {D : Type} (d : Dialect D) (R : Resource) :
    (Translator.getSection d R = none ↔
      mapGet (R.sectionMap d.sect) d.key = none) ∧
    (∀ e, Translator.getSection d R = some (.error e) ↔
      ∃ jv, mapGet (R.sectionMap d.sect) d.key = some jv ∧
        d.decode jv = .error e) ∧
    (∀ v, Translator.getSection d R = some (.ok v) ↔
      ∃ jv, mapGet (R.sectionMap d.sect) d.key = some jv ∧
        d.decode jv = .ok v) := by
  rw [getSection_eq]
  cases h : mapGet (R.sectionMap d.sect) d.key with
  | none => simp
  | some jv =>
    refine ⟨by simp, fun e => ?_, fun v => ?_⟩ <;> simp [eq_comm]

/-- Claim C2: `update_section::<D>(f)` applies `f` to the decoded current
value when the section decodes, behaves identically to
`set_section(f(D::default()))` when the section is absent, and, when the
section is present but malformed, returns the decode error while leaving
the resource's `spec` and `status` maps unchanged (in particular the result
does not depend on `f`, which is never invoked). -/
theorem C2_update_section {D : Type} (d : Dialect D) (dflt : D) (f : D → D)
    (R : Resource) :
    (∀ v, Translator.getSection d R = some (.ok v) →
      Translator.update_section d dflt f R = Translator.set_section d (f v) R) ∧
    (Translator.getSection d R = none →
      Translator.update_section d dflt f R =
        Translator.set_section d (f dflt) R) ∧
    (∀ e, Translator.getSection d R = some (.error e) →
      Translator.update_section d dflt f R = (.error e, R)) := by
  refine ⟨fun v h => ?_, fun h => ?_, fun e h => ?_⟩ <;>
    simp [Translator.update_section, h]

/-- Witness for C2 at the `core` dialect on an empty resource: the section
is absent, so updating equals setting the transformed default. -/
theorem C2_update_section_witness :
    Translator.update_section coreDialect { disabled := false }
        (fun c => { disabled := !c.disabled }) { spec := [], status := [] } =
      Translator.set_section coreDialect { disabled := true }
        { spec := [], status := [] } := by
  exact (C2_update_section coreDialect { disabled := false }
    (fun c => { disabled := !c.disabled }) { spec := [], status := [] }).2.1 rfl

/-- The `core` dialect's decode inverts its encode: `skip_serializing_if`
drops the `disabled` field exactly when decode defaults it. -/
theorem coreDialect_roundtrip :
    ∀ (w : DeviceSpecCore) (jv : Value),
      coreDialect.encode w = .ok jv → coreDialect.decode jv = .ok w := by
  intro w jv h
  obtain ⟨b⟩ := w
  cases b <;> simp [coreDialect, DeviceSpecCore.serialize] at h <;>
    rw [← h] <;> rfl

/-- Claim C3: when the dialect's encode/decode pair is value-preserving,
a successful `set_section(v)` makes `section::<D>()` return `some (ok v)`. -/
theorem C3_set_then_get {D : Type} (d : Dialect D) (R RT : Resource) (v : D)
    (hrt : ∀ w jv, d.encode w = .ok jv → d.decode jv = .ok w)
    (hset : Translator.set_section d v R = (.ok (), RT)) :
    Translator.getSection d RT = some (.ok v) := by
  unfold Translator.set_section at hset
  cases henc : d.encode v with
  | error e => rw [henc] at hset; simp at hset
  | ok jv =>
    rw [henc] at hset
    have hRT := congrArg Prod.snd hset
    simp at hRT
    rw [getSection_eq]
    cases hs : d.sect with
    | spec =>
      rw [hs] at hRT
      rw [← hRT]
      simp [Resource.sectionMap, mapGet_mapInsert, hrt v jv henc]
    | status =>
      rw [hs] at hRT
      rw [← hRT]
      simp [Resource.sectionMap, mapGet_mapInsert, hrt v jv henc]

/-- Witness for C3 at the `core` dialect: setting `disabled := true` on an
empty resource and reading it back returns the same value. -/
theorem C3_set_then_get_witness :
    Translator.getSection coreDialect
        { spec := [("core", Value.obj [("disabled", Value.bool true)])],
          status := [] } = some (.ok { disabled := true }) := by
  exact C3_set_then_get coreDialect { spec := [], status := [] }
    { spec := [("core", Value.obj [("disabled", Value.bool true)])],
      status := [] }
    { disabled := true } coreDialect_roundtrip rfl

/-- Claim C4: `Conditions::update(type, status)` rewrites the first
condition of matching type — bumping `last_transition_time` to `now` only
when the stored status string differs from the new one, while overwriting
`reason` and `message` in both cases — and appends a fresh condition
stamped `now` when no condition of that type exists. -/
theorem C4_conditions_update (now : Nat) (t : String) (st : ConditionStatus) :
    (∀ pre c post, (∀ cp ∈ pre, cp.type ≠ t) → c.type = t →
      Conditions.update now (pre ++ c :: post) t st =
        pre ++
          { c with
            last_transition_time :=
              if c.status = Conditions.make_status st.status then
                c.last_transition_time
              else now,
            status := Conditions.make_status st.status,
            reason := st.reason,
            message := st.message } :: post) ∧
    (∀ cs, (∀ c ∈ cs, c.type ≠ t) →
      Conditions.update now cs t st =
        cs ++
          [{ last_transition_time := now, message := st.message,
             reason := st.reason,
             status := Conditions.make_status st.status, type := t }]) := by
  constructor
  · intro pre c post hpre hc
    induction pre with
    | nil =>
      by_cases hs : c.status = Conditions.make_status st.status
      · simp [Conditions.update, hc, hs]
      · simp [Conditions.update, hc, hs]
    | cons p ps ih =>
      have hp : p.type ≠ t := hpre p (by simp)
      have ih2 := ih fun cp hcp => hpre cp (by simp [hcp])
      simp [Conditions.update, hp, ih2]
  · intro cs h
    induction cs with
    | nil => simp [Conditions.update]
    | cons c rest ih =>
      have hc : c.type ≠ t := h c (by simp)
      have ih2 := ih fun cp hcp => h cp (by simp [hcp])
      simp [Conditions.update, hc, ih2]

/-- Witness for C4: a repeated `update` with unchanged status keeps the
stored transition time `5` and still overwrites the reason. -/
theorem C4_conditions_update_witness :
    Conditions.update 9
        [{ last_transition_time := 5, message := none, reason := none,
           status := "True", type := "X" }] "X"
        { status := some true, reason := some "r", message := none } =
      [{ last_transition_time := 5, message := none, reason := some "r",
         status := "True", type := "X" }] := by
  have h := (C4_conditions_update 9 "X"
      { status := some true, reason := some "r", message := none }).1 []
      { last_transition_time := 5, message := none, reason := none,
        status := "True", type := "X" } [] (by simp) rfl
  simpa using h

/-- The break-on-first-failure ready scan accepts exactly the lists whose
non-`Ready` conditions all carry status `"True"`. -/
theorem readyLoop_iff (cs : List Condition) :
    Conditions.readyLoop cs = true ↔
      ∀ c ∈ cs, c.type = CONDITION_READY ∨ c.status = "True" := by
  induction cs with
  | nil => simp [Conditions.readyLoop]
  | cons c rest ih =>
    by_cases h1 : c.type = CONDITION_READY
    · simp [Conditions.readyLoop, h1, ih]
    · by_cases h2 : c.status = "True"
      · simp [Conditions.readyLoop, h1, h2, ih]
      · simp [Conditions.readyLoop, h1, h2]

/-- `Conditions::update` always leaves a condition of the updated type in
the list, carrying the new status string, reason and message. -/
theorem update_sets_condition (now : Nat) (cs : List Condition) (t : String)
    (st : ConditionStatus) :
    ∃ c, c ∈ Conditions.update now cs t st ∧ c.type = t ∧
      c.status = Conditions.make_status st.status ∧
      c.reason = st.reason ∧ c.message = st.message := by
  induction cs with
  | nil =>
    refine ⟨{ last_transition_time := now, message := st.message,
              reason := st.reason,
              status := Conditions.make_status st.status, type := t },
            ?_, rfl, rfl, rfl, rfl⟩
    simp [Conditions.update]
  | cons c rest ih =>
    by_cases hc : c.type = t
    · refine ⟨{ c with
          last_transition_time :=
            if c.status ≠ Conditions.make_status st.status then now
            else c.last_transition_time,
          status :=
            if c.status ≠ Conditions.make_status st.status then
              Conditions.make_status st.status
            else c.status,
          reason := st.reason, message := st.message },
          ?_, hc, ?_, rfl, rfl⟩
      · simp [Conditions.update, hc]
      · by_cases hs : c.status = Conditions.make_status st.status
        · simp [hs]
        · simp [hs]
    · obtain ⟨x, hx, hprops⟩ := ih
      exact ⟨x, by simp [Conditions.update, hc, hx], hprops⟩

/-- Claim C5: `aggregate_ready()` updates the `Ready` condition with status
`True` exactly when every other condition's status is the string `"True"`
and with status `False` and reason `NonReadyConditions` otherwise; the
resulting list always carries such a `Ready` condition; and `clear_ready`
on `[A:False, Ready:False]` for type `"A"` yields exactly `[Ready:True]`. -/
theorem C5_aggregate_and_clear :
    (∀ (now : Nat) (cs : List Condition),
      Conditions.aggregate_ready now cs =
        Conditions.update now cs CONDITION_READY
          (if ∀ c ∈ cs, c.type = CONDITION_READY ∨ c.status = "True" then
            { status := some true, reason := none, message := none }
          else
            { status := some false, reason := some "NonReadyConditions",
              message := none })) ∧
    (∀ (now : Nat) (cs : List Condition),
      ∃ c, c ∈ Conditions.aggregate_ready now cs ∧
        c.type = CONDITION_READY ∧
        (c.status = "True" ↔
          ∀ cp ∈ cs, cp.type = CONDITION_READY ∨ cp.status = "True") ∧
        ((¬ ∀ cp ∈ cs, cp.type = CONDITION_READY ∨ cp.status = "True") →
          c.status = "False" ∧ c.reason = some "NonReadyConditions")) ∧
    (∀ (now a b : Nat),
      Conditions.clear_ready now
          [{ last_transition_time := a, message := none, reason := none,
             status := "False", type := "A" },
           { last_transition_time := b, message := none, reason := none,
             status := "False", type := CONDITION_READY }] "A" =
        [{ last_transition_time := now, message := none, reason := none,
           status := "True", type := CONDITION_READY }]) := by
  refine ⟨fun now cs => ?_, fun now cs => ?_, fun now a b => rfl⟩
  · by_cases h : ∀ c ∈ cs, c.type = CONDITION_READY ∨ c.status = "True"
    · have hl : Conditions.readyLoop cs = true := (readyLoop_iff cs).mpr h
      simp [Conditions.aggregate_ready, hl, if_pos h]
    · have hl : Conditions.readyLoop cs = false := by
        cases hr : Conditions.readyLoop cs with
        | true => exact absurd ((readyLoop_iff cs).mp hr) h
        | false => rfl
      simp [Conditions.aggregate_ready, hl, if_neg h]
  · by_cases h : ∀ c ∈ cs, c.type = CONDITION_READY ∨ c.status = "True"
    · have hl : Conditions.readyLoop cs = true := (readyLoop_iff cs).mpr h
      obtain ⟨c, hmem, htype, hstatus, hreason, hmsg⟩ :=
        update_sets_condition now cs CONDITION_READY
          { status := some true, reason := none, message := none }
      refine ⟨c, ?_, htype, ⟨fun _ => h, fun _ => ?_⟩,
        fun hcon => absurd h hcon⟩
      · simpa [Conditions.aggregate_ready, hl] using hmem
      · simpa [Conditions.make_status] using hstatus
    · have hl : Conditions.readyLoop cs = false := by
        cases hr : Conditions.readyLoop cs with
        | true => exact absurd ((readyLoop_iff cs).mp hr) h
        | false => rfl
      obtain ⟨c, hmem, htype, hstatus, hreason, hmsg⟩ :=
        update_sets_condition now cs CONDITION_READY
          { status := some false, reason := some "NonReadyConditions",
            message := none }
      have hfalse : c.status = "False" := by
        simpa [Conditions.make_status] using hstatus
      refine ⟨c, ?_, htype, ⟨fun hTrue => ?_, fun hall => absurd hall h⟩,
        fun _ => ⟨hfalse, hreason⟩⟩
      · simpa [Conditions.aggregate_ready, hl] using hmem
      · rw [hfalse] at hTrue
        exact absurd hTrue (by decide)

/-- Witness for C5: aggregating the empty condition list installs a `Ready`
condition via an update with status `True`. -/
theorem C5_aggregate_and_clear_witness :
    Conditions.aggregate_ready 3 [] =
      Conditions.update 3 [] CONDITION_READY
        { status := some true, reason := none, message := none } := by
  have h := C5_aggregate_and_clear.1 3 []
  rw [if_pos (by simp)] at h
  exact h

/-- Counterexample for C6: an object whose single key is unknown does not
always decode to the default Internal variant — the unknown key's sub-value
is decoded as an `InternalSpec`, so a non-object sub-value is a decode
error rather than the default. -/
theorem C6_counterexample :
    DownstreamSpec.deserialize (Value.obj [("unknownKey", Value.num 5)]) =
      .error "invalid type: expected struct InternalSpec" ∧
    DownstreamSpec.deserialize (Value.obj [("unknownKey", Value.num 5)]) ≠
      Except.ok (DownstreamSpec.Internal { password := none }) := by
  have h : DownstreamSpec.deserialize (Value.obj [("unknownKey", Value.num 5)]) =
      Except.error "invalid type: expected struct InternalSpec" := rfl
  refine ⟨h, ?_⟩
  rw [h]
  simp

/-- Claim C6 (amended): decoding a `DownstreamSpec` object branches on its
first key: `externalKafka` yields the ExternalKafka variant from the
sub-value, the empty object yields the default Internal variant, and any
other first key yields the Internal variant decoded from that key's
sub-value — so `（unknownKey ↦ empty object）` decodes to the default
Internal variant, while an unknown-key sub-value that is not a valid
`InternalSpec` is a decode error. -/
theorem C6_downstream_decode :
    DownstreamSpec.deserialize (Value.obj []) =
      .ok (.Internal { password := none }) ∧
    (∀ v, DownstreamSpec.deserialize (Value.obj [("externalKafka", v)]) =
      (ExternalKafkaSpec.deserialize v).map DownstreamSpec.ExternalKafka) ∧
    DownstreamSpec.deserialize (Value.obj [("unknownKey", Value.obj [])]) =
      .ok (.Internal { password := none }) ∧
    (∀ k v, k ≠ "externalKafka" →
      DownstreamSpec.deserialize (Value.obj [(k, v)]) =
        (InternalSpec.deserialize v).map DownstreamSpec.Internal) := by
  refine ⟨rfl, fun v => ?_, rfl, fun k v hk => ?_⟩
  · cases h : ExternalKafkaSpec.deserialize v <;>
      simp [DownstreamSpec.deserialize, h, Except.map]
  · cases h : InternalSpec.deserialize v <;>
      simp [DownstreamSpec.deserialize, hk, h, Except.map]

/-- Witness for C6 (amended): the known-but-not-external key `internal`
goes through the Internal branch and keeps its payload. -/
theorem C6_downstream_decode_witness :
    DownstreamSpec.deserialize
        (Value.obj [("internal", Value.obj [("password", Value.str "x")])]) =
      Except.ok (DownstreamSpec.Internal { password := some "x" }) := by
  have h := C6_downstream_decode.2.2.2 "internal"
    (Value.obj [("password", Value.str "x")]) (by decide)
  rw [h]
  rfl

/-- Claim C7: `Password` decoding accepts both the legacy bare string and
the tagged single-entry object, and the two forms agree: any string `s`
and the object `（plain ↦ s）` decode to the plain password, `bcrypt` and
`sha512` tags decode to their variants, any other tag is a decode error,
and encoding always emits the tagged object form, never a bare string. -/
theorem C7_password :
    (∀ s, Password.deserialize (Value.str s) = .ok (.Plain s)) ∧
    Password.deserialize (Value.obj [("plain", Value.str "foo")]) =
      .ok (.Plain "foo") ∧
    (∀ s, Password.deserialize (Value.obj [("plain", Value.str s)]) =
      .ok (.Plain s)) ∧
    (∀ s, Password.deserialize (Value.obj [("bcrypt", Value.str s)]) =
      .ok (.BCrypt s)) ∧
    (∀ s, Password.deserialize (Value.obj [("sha512", Value.str s)]) =
      .ok (.Sha512 s)) ∧
    (∀ k v, k ≠ "plain" → k ≠ "bcrypt" → k ≠ "sha512" →
      Password.deserialize (Value.obj [(k, v)]) =
        .error ("unknown field " ++ k)) ∧
    (∀ p, ∃ k s, Password.serialize p = Value.obj [(k, Value.str s)]) := by
  refine ⟨fun s => rfl, rfl, fun s => rfl, fun s => rfl, fun s => rfl,
    fun k v h1 h2 h3 => ?_, fun p => ?_⟩
  · simp [Password.deserialize, h1, h2, h3]
  · cases p <;> exact ⟨_, _, rfl⟩

/-- Witness for C7: the unrecognized tag `md5` is rejected with an
unknown-field error. -/
theorem C7_password_witness :
    Password.deserialize (Value.obj [("md5", Value.str "x")]) =
      .error "unknown field md5" := by
  exact C7_password.2.2.2.2.2.1 "md5" (Value.str "x")
    (by decide) (by decide) (by decide)

/-- Claim C8, evaluated at the failing input: for a device whose `core`
spec section decodes to `disabled := true`, the `DeviceEnabled` attribute
returns `true` (it returns `core.disabled` unnegated in the decoded
branch), while `Device::validate_device` — the code's own notion of "is
this device enabled" — returns `false` on the same resource. The absent
and malformed branches do match the claim (`true` and `false`). -/
theorem C8_device_enabled_eval :
    Translator.attributeOf coreDialect DeviceEnabled.extract
        { spec := [("core", Value.obj [("disabled", Value.bool true)])],
          status := [] } = true ∧
    Device.validate_device
        { spec := [("core", Value.obj [("disabled", Value.bool true)])],
          status := [] } = false ∧
    (∀ c, DeviceEnabled.extract (some (.ok c)) = c.disabled) ∧
    DeviceEnabled.extract none = true ∧
    (∀ e, DeviceEnabled.extract (some (.error e)) = false) := by
  exact ⟨rfl, rfl, fun c => rfl, rfl, fun e => rfl⟩

/-- Claim C9: a role set containing `Admin` contains every role; a set
containing only `Reader` contains neither `Manager` nor `Admin`; and a set
containing `Manager` contains `Reader` (the implication does not hold the
other way around). -/
theorem C9_roles_contains :
    (∀ rs r, rs.contains Role.Admin = true → Roles.contains rs r = true) ∧
    Roles.contains [Role.Reader] Role.Manager = false ∧
    Roles.contains [Role.Reader] Role.Admin = false ∧
    (∀ rs, rs.contains Role.Manager = true →
      Roles.contains rs Role.Reader = true) := by
  refine ⟨fun rs r h => ?_, by decide, by decide, fun rs h => ?_⟩
  · simp [Roles.contains, h]
  · by_cases hA : rs.contains Role.Admin <;> simp [Roles.contains, hA, h]

/-- Witness for C9: an admin-only set contains `Subscriber`, and a
manager-only set contains `Reader`. -/
theorem C9_roles_contains_witness :
    Roles.contains [Role.Admin] Role.Subscriber = true ∧
    Roles.contains [Role.Manager] Role.Reader = true := by
  exact ⟨C9_roles_contains.1 [Role.Admin] Role.Subscriber (by decide),
    C9_roles_contains.2.2.2 [Role.Manager] (by decide)⟩

/-- Claim C10: the ordering on `PreSharedKey` is not antisymmetric (hence
not a total order): whenever `a` has no validity and `b` has one,
`cmp a b` is `lt` while `cmp b a` is `eq`; and `pcmp` never returns
`none`, so the `unwrap` inside `cmp` never panics. -/
theorem C10_psk_order :
    (∀ a b : PreSharedKey, a.validity = none → b.validity ≠ none →
      PreSharedKey.cmp a b = Ordering.lt ∧
        PreSharedKey.cmp b a = Ordering.eq) ∧
    (∀ a b : PreSharedKey, (PreSharedKey.pcmp a b).isSome = true) := by
  constructor
  · intro a b ha hb
    obtain ⟨vb, hvb⟩ := Option.ne_none_iff_exists'.mp hb
    constructor <;>
      simp [PreSharedKey.cmp, PreSharedKey.pcmp, ha, hvb]
  · intro a b
    cases ha : a.validity <;> cases hb : b.validity <;>
      simp [PreSharedKey.pcmp, ha, hb, optValidityPcmp, Validity.pcmp]

/-- Witness for C10: a key without validity sorts strictly below a key with
one, yet the reverse comparison reports equality. -/
theorem C10_psk_order_witness :
    PreSharedKey.cmp { key := [1], validity := none }
        { key := [], validity := some { not_before := 0, not_after := 1 } } =
      Ordering.lt ∧
    PreSharedKey.cmp
        { key := [], validity := some { not_before := 0, not_after := 1 } }
        { key := [1], validity := none } = Ordering.eq := by
  exact C10_psk_order.1
    { key := [1], validity := none }
    { key := [], validity := some { not_before := 0, not_after := 1 } }
    rfl (by decide)

end Drogue
